import Mathlib

/-!
Shallow embedding of the thneed record/replay engine
(src/openpilot/thneed/thneed.h).

The repository ships only the header: class declarations for
`CLQueuedKernel` and `Thneed` with their fields and method signatures
(thneed.h lines 22-97).  The method bodies are not under src/, so each
operation below is modelled from the spec, as noted in its doc comment;
the field layout and the signatures follow the header.

Device memory is modelled as a map from buffer handles (`cl_mem`,
modelled as `Nat`) to buffer contents (a list of numeric cells).
-/

/-- Device memory: each `cl_mem` handle (a `Nat`) maps to its contents. -/
def Mem : Type := Nat → List Nat

/-- Overwrite one device buffer with new contents. -/
def writeBuf (m : Mem) (b : Nat) (v : List Nat) : Mem :=
  fun x => if x = b then v else m x

/-- One captured kernel launch, mirroring `CLQueuedKernel` (thneed.h
lines 22-49): name, declared argument count `num_args`, the four
parallel argument vectors `arg_names` / `arg_types` / `args` /
`args_size`, and the work-shape `work_dim` / `global_work_size` /
`local_work_size` (three entries, zero-padded, per the header arrays).

Modelled from the spec (the bodies that give a record its runtime
meaning are not in src/): `consumes` and `produces` are the device
buffers the launch reads and writes, `compute` gives the written
contents of each produced buffer from the read values, and `status` is
the `cl_int` the backend returns when the record is submitted
(`CLQueuedKernel::exec`, declared at thneed.h line 30). -/
structure CLQueuedKernel where
  name : String
  num_args : Nat
  arg_names : List String
  arg_types : List String
  args : List String
  args_size : List Int
  work_dim : Nat
  global_work_size : List Nat
  local_work_size : List Nat
  consumes : List Nat
  produces : List Nat
  compute : List (List Nat) → Nat → List Nat
  status : Int

/-- Submitting one record: every produced buffer is rewritten as a
function of the values read from the consumed buffers; all other
buffers are untouched.  Modelled from the spec (`exec()` submits the
launch with its currently-bound arguments; it never mutates bindings). -/
def runKernel (k : CLQueuedKernel) (m : Mem) : Mem :=
  fun b => if b ∈ k.produces then k.compute (k.consumes.map m) b else m b

/-- Submit a sequence of records in order, unconditionally. -/
def replayList : List CLQueuedKernel → Mem → Mem
  | [], m => m
  | k :: ks, m => replayList ks (runKernel k m)

/-- The engine, mirroring `Thneed` (thneed.h lines 52-97): the capture
flag `record` (line 72), declared-input device buffers `input_clmem`
and their sizes (lines 61-63), the single declared output buffer
(line 64), the finalized kernel queue `kq` (line 87) and the pending
queue `ckq` (line 90). -/
structure Thneed where
  record : Bool
  input_clmem : List Nat
  input_sizes : List Nat
  output : Nat
  kq : List CLQueuedKernel
  ckq : List CLQueuedKernel

/-- Modelled from the spec: the body of `Thneed::stop` (declared at
thneed.h line 55) is not in src/.  `stopCapture()` moves pending into
finalized atomically when mode = recording (the header's `record`
flag), leaving pending empty; when mode is not recording it is a
no-op, not an error. -/
def Thneed.stop (t : Thneed) : Thneed :=
  if t.record then { t with kq := t.ckq, ckq := [], record := false } else t

/-- Copy one host buffer per device buffer handle, in declaration
order; extra handles with no matching host buffer are left untouched. -/
def copyList : List Nat → List (List Nat) → Mem → Mem
  | b :: bs, v :: vs, m => copyList bs vs (writeBuf m b v)
  | _, _, m => m

/-- Modelled from the spec: the body of `Thneed::copy_inputs` (declared
at thneed.h line 84) is not in src/.  `bindInputs` copies each host
input buffer into its declared device buffer, in declaration order. -/
def Thneed.copy_inputs (t : Thneed) (finputs : List (List Nat)) (m : Mem) : Mem :=
  copyList t.input_clmem finputs m

/-- Modelled from the spec: the body of `Thneed::copy_output` (declared
at thneed.h line 85) is not in src/.  `readOutput` copies the declared
output device buffer back to the host. -/
def Thneed.copy_output (t : Thneed) (m : Mem) : List Nat :=
  m t.output

/-- Fail-fast submission of a record sequence: each record is submitted
in order; the first non-success status aborts the pass (the failing
record has no memory effect and no later record is submitted) and is
returned; if every submission succeeds the pass returns 0
(CL_SUCCESS). -/
def clexecList : List CLQueuedKernel → Mem → Int × Mem
  | [], m => (0, m)
  | k :: ks, m => if k.status = 0 then clexecList ks (runKernel k m) else (k.status, m)

/-- Modelled from the spec: the body of `Thneed::clexec` (declared at
thneed.h line 86, returning `cl_int`) is not in src/.  `submitAll`
replays the finalized sequence in order and returns the first
non-success status encountered, aborting the remaining submissions of
that pass. -/
def Thneed.clexec (t : Thneed) (m : Mem) : Int × Mem :=
  clexecList t.kq m

set_option linter.unusedVariables false in
/-- Modelled from the spec: the body of `Thneed::execute` (declared
`void` at thneed.h line 56) is not in src/.  `execute(inputs, output,
slow)` runs `bindInputs`, then `replay(slow)`, then `readOutput`; the
`slow` flag only inserts blocking waits, which have no memory effect
here (hence the unused-variable option); the `cl_int` produced by the submission pass is dropped, since
the header declares `execute` as returning `void`.  The result is the
host output value paired with the final device memory. -/
def Thneed.execute (t : Thneed) (finputs : List (List Nat)) (slow : Bool) (m : Mem) :
    List Nat × Mem :=
  let m1 := t.copy_inputs finputs m
  let r := t.clexec m1
  let m2 := r.2
  (t.copy_output m2, m2)

/-- Errors the engine can signal. -/
inductive ThneedError where
  | topologyError
deriving DecidableEq

/-- All device buffers referenced (consumed or produced) by a plan. -/
def refBufs : List CLQueuedKernel → List Nat
  | [] => []
  | k :: ks => k.consumes ++ k.produces ++ refBufs ks

/-- Some record of the sequence consumes buffer `b`. -/
def consumedB (ks : List CLQueuedKernel) (b : Nat) : Bool :=
  ks.any fun k => k.consumes.contains b

/-- Buffer `b` is consumed by some record strictly after a record that
produces it. -/
def consAfterProd : List CLQueuedKernel → Nat → Bool
  | [], _ => false
  | k :: ks, b => (k.produces.contains b && consumedB ks b) || consAfterProd ks b

/-- Some record produces buffer `b` and no later record consumes it. -/
def prodNotConsLater : List CLQueuedKernel → Nat → Bool
  | [], _ => false
  | k :: ks, b => (k.produces.contains b && !consumedB ks b) || prodNotConsLater ks b

/-- Role test from the spec: `b` is an input when it is consumed and is
never produced by a record earlier than a consumption (it is bound
from outside the plan). -/
def isInputB (ks : List CLQueuedKernel) (b : Nat) : Bool :=
  consumedB ks b && !consAfterProd ks b

/-- Role test from the spec: `b` is an intermediate when some earlier
record writes it and some later record reads it. -/
def isIntermediateB (ks : List CLQueuedKernel) (b : Nat) : Bool :=
  consAfterProd ks b

/-- Role test from the spec: `b` is the output when it is written by
some record and never read by any later record. -/
def isOutputB (ks : List CLQueuedKernel) (b : Nat) : Bool :=
  prodNotConsLater ks b

/-- A buffer is uniquely classified when exactly one of the three role
tests holds. -/
def uniqueRoleB (ks : List CLQueuedKernel) (b : Nat) : Bool :=
  (isInputB ks b && !isIntermediateB ks b && !isOutputB ks b) ||
    (!isInputB ks b && isIntermediateB ks b && !isOutputB ks b) ||
    (!isInputB ks b && !isIntermediateB ks b && isOutputB ks b)

/-- Modelled from the spec: the body of `Thneed::find_inputs_outputs`
(declared at thneed.h line 83) is not in src/.  `classifyBuffers`
walks the finalized sequence and assigns each referenced buffer its
role (input / intermediate / output); when some buffer cannot be
uniquely classified it signals TopologyError instead of completing,
otherwise it yields the declared inputs and the output sinks. -/
def find_inputs_outputs (ks : List CLQueuedKernel) :
    Except ThneedError (List Nat × List Nat) :=
  let bufs := (refBufs ks).dedup
  if bufs.all (fun b => uniqueRoleB ks b) then
    Except.ok (bufs.filter (fun b => isInputB ks b), bufs.filter (fun b => isOutputB ks b))
  else
    Except.error ThneedError.topologyError

/-- A concrete kernel record used by the witnesses. -/
def sampleKernel : CLQueuedKernel where
  name := "convolution_horizontal_reduced_reads"
  num_args := 1
  arg_names := ["input"]
  arg_types := ["image2d_t"]
  args := ["\x10"]
  args_size := [8]
  work_dim := 1
  global_work_size := [4, 0, 0]
  local_work_size := [2, 0, 0]
  consumes := [0]
  produces := [1]
  compute := fun vs _ => (vs.headI).map (· + 1)
  status := 0

/-- A concrete engine that is mid-capture (mode = recording). -/
def sampleRecording : Thneed where
  record := true
  input_clmem := [0]
  input_sizes := [12]
  output := 1
  kq := []
  ckq := [sampleKernel]

/-- A concrete engine that never started capture (mode = idle). -/
def sampleIdle : Thneed where
  record := false
  input_clmem := []
  input_sizes := []
  output := 0
  kq := []
  ckq := []

/-- A concrete record that fails on submission with status 7. -/
def kernelBad : CLQueuedKernel := { sampleKernel with name := "bad", status := 7 }

/-- A concrete plan whose second record is the first to fail. -/
def sampleMidFail : Thneed where
  record := false
  input_clmem := [0]
  input_sizes := [12]
  output := 1
  kq := [sampleKernel, kernelBad, sampleKernel]
  ckq := []

/-- A concrete plan all of whose submissions succeed. -/
def samplePlan : Thneed where
  record := false
  input_clmem := [0]
  input_sizes := [12]
  output := 1
  kq := [sampleKernel]
  ckq := []

/-- All device buffers produced by some record of the sequence. -/
def prodAll : List CLQueuedKernel → List Nat
  | [] => []
  | k :: ks => k.produces ++ prodAll ks

/-- Well-formedness of a finalized plan (spec: classification has
succeeded), relative to the declared input buffers and the buffers
`prodded` already produced: every buffer a record consumes is a
declared input or was produced by an earlier record. -/
def wfPlanB (inputs : List Nat) : List Nat → List CLQueuedKernel → Bool
  | _, [] => true
  | prodded, k :: ks =>
    (k.consumes.all fun b => decide (b ∈ inputs ∨ b ∈ prodded)) &&
      wfPlanB inputs (prodded ++ k.produces) ks

/-- A concrete engine whose single finalized record fails on
submission with status 5. -/
def sampleFailing : Thneed where
  record := false
  input_clmem := [0]
  input_sizes := [12]
  output := 1
  kq := [{ sampleKernel with status := 5 }]
  ckq := []

/-- The all-empty starting device memory used by the witnesses. -/
def memZero : Mem := fun _ => []

/-- A concrete record producing buffer 5 and reading nothing. -/
def kernelProducer : CLQueuedKernel :=
  { sampleKernel with name := "produce5", consumes := [], produces := [5] }

/-- A concrete record that both consumes and re-produces buffer 5, so
buffer 5 is at once an intermediate (written by the first record, read
by this one) and a sink (written here, never read later). -/
def kernelAmbiguous : CLQueuedKernel :=
  { sampleKernel with name := "rewrite5", consumes := [5], produces := [5] }

/-- One argument descriptor: name, type tag, raw value bytes, byte
size. -/
structure ArgDesc where
  name : String
  typ : String
  value : String
  size : Int

/-- Modelled from the spec: the body of the capturing constructor
`CLQueuedKernel(Thneed*, cl_kernel, cl_uint, const size_t*, const size_t*)`
(declared at thneed.h lines 25-29) is not in src/.  It captures one
observed launch: the bound argument descriptors are split into the
header's four parallel vectors, with `num_args` (the kernel's declared
argument count) their common length; the work-shape is stored
zero-padded to the header's three-entry arrays.  A work-shape whose
dimensionality is outside {1,2,3} or which has a zero global or local
size entry within its declared dimensions is rejected (`none`), never
silently kept. -/
def CLQueuedKernel.create (name : String) (descs : List ArgDesc) (work_dim : Nat)
    (gws lws : List Nat) (consumes produces : List Nat)
    (compute : List (List Nat) → Nat → List Nat) (status : Int) :
    Option CLQueuedKernel :=
  if 1 ≤ work_dim ∧ work_dim ≤ 3 ∧ work_dim ≤ gws.length ∧ work_dim ≤ lws.length ∧
      (gws.take work_dim).all (fun x => x != 0) ∧
      (lws.take work_dim).all (fun x => x != 0) then
    some { name := name
           num_args := descs.length
           arg_names := descs.map (fun d => d.name)
           arg_types := descs.map (fun d => d.typ)
           args := descs.map (fun d => d.value)
           args_size := descs.map (fun d => d.size)
           work_dim := work_dim
           global_work_size := gws.take work_dim ++ List.replicate (3 - work_dim) 0
           local_work_size := lws.take work_dim ++ List.replicate (3 - work_dim) 0
           consumes := consumes
           produces := produces
           compute := compute
           status := status }
  else none

/-- A fixed trivial compute function for concrete records. -/
def sampleCompute : List (List Nat) → Nat → List Nat := fun _ _ => []

/-- The record that `CLQueuedKernel.create` builds from one descriptor
named x, work dimensionality 1, global size 4, local size 2. -/
def createdKernel : CLQueuedKernel where
  name := "created"
  num_args := 1
  arg_names := ["x"]
  arg_types := ["int"]
  args := ["\x04"]
  args_size := [4]
  work_dim := 1
  global_work_size := [4, 0, 0]
  local_work_size := [2, 0, 0]
  consumes := []
  produces := []
  compute := sampleCompute
  status := 0

/-- Scan the argument names from position `i`, returning the position
of the first exact match, or -1 when none matches. -/
def argIndexAux : List String → Nat → String → Int
  | [], _, _ => -1
  | n :: ns, i, s => if n = s then (i : Int) else argIndexAux ns (i + 1) s

/-- Modelled from the spec: the body of `CLQueuedKernel::get_arg_num`
(declared `int get_arg_num(const char *)` at thneed.h line 33) is not
in src/.  `getArgIndex(name)` is an exact-match lookup over the
argument descriptors, returning the not-found sentinel -1 when no
descriptor has that name. -/
def CLQueuedKernel.get_arg_num (k : CLQueuedKernel) (s : String) : Int :=
  argIndexAux k.arg_names 0 s

/-- C6: whenever some referenced device buffer cannot be uniquely
classified as input, intermediate or output, `find_inputs_outputs`
signals TopologyError rather than completing silently. -/
theorem find_inputs_outputs_topology_error (ks : List CLQueuedKernel) (b : Nat)
    (hb : b ∈ refBufs ks) (hbad : uniqueRoleB ks b = false) :
    find_inputs_outputs ks = Except.error ThneedError.topologyError := by
  rw [find_inputs_outputs]
  rw [if_neg]
  intro hall
  have h := List.all_eq_true.mp hall b (List.mem_dedup.mpr hb)
  rw [hbad] at h
  exact Bool.false_ne_true h

/-- C4: while the engine is recording, `stop` moves the whole pending
sequence into the finalized sequence in capture order, empties the
pending sequence, and leaves the mode recorded (the header's `record`
flag cleared). -/
theorem thneed_stop_finalizes_pending (t : Thneed) (h : t.record = true) :
    (t.stop).kq = t.ckq ∧ (t.stop).ckq = [] ∧ (t.stop).record = false := by
  simp [Thneed.stop, h]

/-- Witness for C4 on a concrete recording engine. -/
theorem thneed_stop_finalizes_pending_witness :
    (sampleRecording.stop).kq = sampleRecording.ckq ∧
      (sampleRecording.stop).ckq = [] ∧ (sampleRecording.stop).record = false :=
  thneed_stop_finalizes_pending sampleRecording rfl

/-- C5: when the engine is not recording (in particular when capture
never started), `stop` is a no-op: the engine state, its finalized
plan included, is unchanged. -/
theorem thneed_stop_noop_when_not_recording (t : Thneed) (h : t.record = false) :
    t.stop = t := by
  simp [Thneed.stop, h]

/-- Witness for C5 on a concrete idle engine with an empty plan. -/
theorem thneed_stop_noop_when_not_recording_witness :
    sampleIdle.stop = sampleIdle :=
  thneed_stop_noop_when_not_recording sampleIdle rfl

/-- When every record's submission succeeds, the fail-fast pass runs
the whole sequence and reports CL_SUCCESS. -/
theorem clexecList_all_success : ∀ (ks : List CLQueuedKernel) (m : Mem),
    (∀ q ∈ ks, q.status = 0) → clexecList ks m = (0, replayList ks m)
  | [], _, _ => rfl
  | k :: ks, m, h => by
    have hk : k.status = 0 := h k (List.mem_cons_self k ks)
    simp only [clexecList, replayList, if_pos hk]
    exact clexecList_all_success ks (runKernel k m)
      (fun q hq => h q (List.mem_cons_of_mem k hq))

/-- When record `k` is the first whose submission fails, the fail-fast
pass returns that record's status, and the final memory is that of
replaying only the records before `k`: neither record `k` nor any
later record is submitted. -/
theorem clexecList_failfast : ∀ (ks : List CLQueuedKernel) (k : Nat) (m : Mem)
    (hk : k < ks.length),
    (∀ i (hi : i < k), (ks.get ⟨i, hi.trans hk⟩).status = 0) →
    (ks.get ⟨k, hk⟩).status ≠ 0 →
    clexecList ks m = ((ks.get ⟨k, hk⟩).status, replayList (ks.take k) m)
  | [], k, _, hk, _, _ => absurd hk (Nat.not_lt_zero k)
  | a :: tl, 0, m, _, _, hf => by
    have ha : a.status ≠ 0 := hf
    simp only [clexecList, List.take, replayList]
    rw [if_neg ha]
    rfl
  | a :: tl, j + 1, m, hk, hpre, hf => by
    have ha : a.status = 0 := hpre 0 (Nat.succ_pos j)
    simp only [clexecList, List.take, replayList, if_pos ha]
    exact clexecList_failfast tl j (runKernel a m) (Nat.lt_of_succ_lt_succ hk)
      (fun i hi => hpre (i + 1) (Nat.succ_lt_succ hi)) hf

/-- C3: the finalized-sequence submission pass `clexec` is fail-fast.
If record `k` is the first to return a non-success status, `clexec`
returns that status and the memory shows only the records before `k`
were submitted; if every submission succeeds, `clexec` returns 0
(CL_SUCCESS). -/
theorem thneed_clexec_failfast :
    (∀ (t : Thneed) (m : Mem) (k : Nat) (hk : k < t.kq.length),
      (∀ i (hi : i < k), (t.kq.get ⟨i, hi.trans hk⟩).status = 0) →
      (t.kq.get ⟨k, hk⟩).status ≠ 0 →
      t.clexec m = ((t.kq.get ⟨k, hk⟩).status, replayList (t.kq.take k) m))
    ∧ (∀ (t : Thneed) (m : Mem), (∀ q ∈ t.kq, q.status = 0) → (t.clexec m).1 = 0) :=
  ⟨fun t m k hk hpre hf => clexecList_failfast t.kq k m hk hpre hf,
   fun t m h => by rw [Thneed.clexec, clexecList_all_success t.kq m h]⟩

/-- Witness for C3: on a plan whose records have statuses 0, 7, 0, the
pass returns 7 with only the first record's effect applied, and on an
all-success plan it returns 0. -/
theorem thneed_clexec_failfast_witness :
    sampleMidFail.clexec memZero = (7, replayList (sampleMidFail.kq.take 1) memZero) ∧
      (samplePlan.clexec memZero).1 = 0 :=
  ⟨thneed_clexec_failfast.1 sampleMidFail memZero 1 (by decide)
      (fun i hi => by
        have h0 : i = 0 := Nat.lt_one_iff.mp hi
        subst h0; rfl)
      (by decide),
   thneed_clexec_failfast.2 samplePlan memZero (by decide)⟩

/-- Two memories that agree on the buffers being copied (and on any
buffer they already agreed on) still agree there after the copy. -/
theorem copyList_agree : ∀ (bs : List Nat) (vs : List (List Nat)) (m₁ m₂ : Mem)
    (b : Nat), bs.length ≤ vs.length → (b ∈ bs ∨ m₁ b = m₂ b) →
    copyList bs vs m₁ b = copyList bs vs m₂ b
  | [], vs, m₁, m₂, b, _, hb => by
    rcases hb with h | h
    · exact absurd h (List.not_mem_nil b)
    · exact h
  | b0 :: bs, [], m₁, m₂, b, hlen, hb => absurd hlen (by simp)
  | b0 :: bs, v :: vs, m₁, m₂, b, hlen, hb => by
    simp only [copyList]
    apply copyList_agree bs vs (writeBuf m₁ b0 v) (writeBuf m₂ b0 v) b
      (Nat.le_of_succ_le_succ (by simpa using hlen))
    by_cases hbb : b = b0
    · right; simp [writeBuf, hbb]
    · rcases hb with h | h
      · rcases List.mem_cons.mp h with h1 | h1
        · exact absurd h1 hbb
        · exact Or.inl h1
      · right; simp [writeBuf, hbb, h]

/-- Replaying a well-formed sequence from two memories that agree on
the declared inputs and everything already produced yields memories
that agree on the inputs and on everything produced so far or by the
sequence: replay output depends only on the plan and the input data. -/
theorem replayList_agree (inputs : List Nat) :
    ∀ (ks : List CLQueuedKernel) (prodded : List Nat) (m₁ m₂ : Mem),
      wfPlanB inputs prodded ks = true →
      (∀ b, b ∈ inputs ∨ b ∈ prodded → m₁ b = m₂ b) →
      ∀ b, b ∈ inputs ∨ b ∈ prodded ++ prodAll ks →
        replayList ks m₁ b = replayList ks m₂ b
  | [], prodded, m₁, m₂, _, hag, b, hb => by
    simp only [replayList]
    apply hag
    simpa [prodAll] using hb
  | k :: ks, prodded, m₁, m₂, hwf, hag, b, hb => by
    simp only [wfPlanB, Bool.and_eq_true] at hwf
    obtain ⟨h1, h2⟩ := hwf
    have hcons : ∀ c ∈ k.consumes, m₁ c = m₂ c := fun c hc =>
      hag c (of_decide_eq_true (List.all_eq_true.mp h1 c hc))
    have hag2 : ∀ x, x ∈ inputs ∨ x ∈ prodded ++ k.produces →
        runKernel k m₁ x = runKernel k m₂ x := by
      intro x hx
      by_cases hp : x ∈ k.produces
      · simp only [runKernel, if_pos hp]
        congr 1
        exact List.map_congr_left hcons
      · simp only [runKernel, if_neg hp]
        apply hag
        rcases hx with h | h
        · exact Or.inl h
        · rcases List.mem_append.mp h with h | h
          · exact Or.inr h
          · exact absurd h hp
    simp only [replayList]
    apply replayList_agree inputs ks (prodded ++ k.produces) _ _ h2 hag2 b
    rcases hb with h | h
    · exact Or.inl h
    · right
      simp only [prodAll] at h
      rw [List.append_assoc]
      exact h

/-- C2: replay determinism.  For a well-formed finalized plan whose
submissions all succeed, whose declared output is produced by some
record, and which is given one host buffer per declared input, running
`execute` a second time with bit-identical inputs (starting from the
device memory the first run left behind) returns bit-identical output
bytes. -/
theorem thneed_execute_deterministic (t : Thneed) (finputs : List (List Nat))
    (slow : Bool) (m0 : Mem)
    (hwf : wfPlanB t.input_clmem [] t.kq = true)
    (hsucc : ∀ q ∈ t.kq, q.status = 0)
    (hlen : t.input_clmem.length ≤ finputs.length)
    (hout : t.output ∈ prodAll t.kq) :
    (t.execute finputs slow (t.execute finputs slow m0).2).1 =
      (t.execute finputs slow m0).1 := by
  have hclex : ∀ m, t.clexec m = (0, replayList t.kq m) := fun m =>
    clexecList_all_success t.kq m hsucc
  simp only [Thneed.execute, Thneed.copy_output, Thneed.copy_inputs, hclex]
  apply replayList_agree t.input_clmem t.kq [] _ _ hwf _ t.output
    (Or.inr (by simpa using hout))
  intro b hb
  rcases hb with h | h
  · exact copyList_agree t.input_clmem finputs _ _ b hlen (Or.inl h)
  · exact absurd h (List.not_mem_nil b)

/-- Witness for C2 on a concrete one-record plan: two consecutive runs
on input [1, 2, 3] read back the same output bytes. -/
theorem thneed_execute_deterministic_witness :
    (samplePlan.execute [[1, 2, 3]] false
        (samplePlan.execute [[1, 2, 3]] false memZero).2).1 =
      (samplePlan.execute [[1, 2, 3]] false memZero).1 :=
  thneed_execute_deterministic samplePlan [[1, 2, 3]] false memZero
    (by decide) (by decide) (by decide) (by decide)

/-- C1: `execute(inputs, output, slow)` is exactly the composition
`copy_inputs` (bindInputs), then `clexec` (the submission pass of
`replay slow`), then `copy_output` (readOutput), for every engine,
input set, slow flag and starting memory. -/
theorem thneed_execute_is_composition (t : Thneed) (finputs : List (List Nat))
    (slow : Bool) (m : Mem) :
    t.execute finputs slow m =
      (t.copy_output (t.clexec (t.copy_inputs finputs m)).2,
        (t.clexec (t.copy_inputs finputs m)).2) := rfl

/-- C10: the status of the submission pass is invisible at `execute`'s
interface.  Whatever `cl_int` status `s` the pass inside `execute`
yields, success or not, `execute`'s result is determined by the pass's
final memory alone; `execute` (declared `void` in thneed.h line 56)
returns no status component at all. -/
theorem thneed_execute_discards_status (t : Thneed) (finputs : List (List Nat))
    (slow : Bool) (m : Mem) (s : Int) (m2 : Mem)
    (h : t.clexec (t.copy_inputs finputs m) = (s, m2)) :
    t.execute finputs slow m = (m2 t.output, m2) := by
  simp [Thneed.execute, Thneed.copy_output, h]

/-- Witness for C10: on a plan whose first record fails with status 5,
`execute` still returns just the output read from the pass's final
memory; the status 5 appears nowhere in the result. -/
theorem thneed_execute_discards_status_witness :
    sampleFailing.execute [[7, 7, 7]] false memZero =
      ((sampleFailing.copy_inputs [[7, 7, 7]] memZero) sampleFailing.output,
        sampleFailing.copy_inputs [[7, 7, 7]] memZero) :=
  thneed_execute_discards_status sampleFailing [[7, 7, 7]] false memZero 5
    (sampleFailing.copy_inputs [[7, 7, 7]] memZero) rfl

/-- Witness for C6: on the two-record plan where buffer 5 is both
intermediate and sink, classification signals TopologyError. -/
theorem find_inputs_outputs_topology_error_witness :
    find_inputs_outputs [kernelProducer, kernelAmbiguous] =
      Except.error ThneedError.topologyError :=
  find_inputs_outputs_topology_error [kernelProducer, kernelAmbiguous] 5
    (by decide) (by decide)

/-- C7: record construction rejects every launch whose work-shape has
dimensionality outside {1,2,3} or a zero global/local size entry
within its declared dimensions, and a record it does construct never
stores a zero entry within its declared dimensions. -/
theorem clqueuedkernel_create_rejects_zero_shape :
    (∀ name descs wd gws lws cs ps f st,
      (wd = 0 ∨ 3 < wd ∨ 0 ∈ gws.take wd ∨ 0 ∈ lws.take wd) →
      CLQueuedKernel.create name descs wd gws lws cs ps f st = none)
    ∧ (∀ name descs wd gws lws cs ps f st k,
      CLQueuedKernel.create name descs wd gws lws cs ps f st = some k →
      0 ∉ k.global_work_size.take k.work_dim ∧
        0 ∉ k.local_work_size.take k.work_dim) := by
  constructor
  · intro name descs wd gws lws cs ps f st hbad
    rw [CLQueuedKernel.create, if_neg]
    rintro ⟨h1, h2, _, _, h5, h6⟩
    rcases hbad with h | h | h | h
    · omega
    · omega
    · have := List.all_eq_true.mp h5 0 h
      simp at this
    · have := List.all_eq_true.mp h6 0 h
      simp at this
  · intro name descs wd gws lws cs ps f st k h
    rw [CLQueuedKernel.create] at h
    split at h
    · rename_i hcond
      obtain ⟨h1, h2, h3, h4, h5, h6⟩ := hcond
      injection h with h
      subst h
      have hlen1 : (gws.take wd).length = wd := by
        rw [List.length_take]; exact Nat.min_eq_left h3
      have hlen2 : (lws.take wd).length = wd := by
        rw [List.length_take]; exact Nat.min_eq_left h4
      constructor
      · show 0 ∉ (gws.take wd ++ List.replicate (3 - wd) 0).take wd
        rw [List.take_left' hlen1]
        intro hz
        have := List.all_eq_true.mp h5 0 hz
        simp at this
      · show 0 ∉ (lws.take wd ++ List.replicate (3 - wd) 0).take wd
        rw [List.take_left' hlen2]
        intro hz
        have := List.all_eq_true.mp h6 0 hz
        simp at this
    · exact Option.noConfusion h

/-- Witness for C7: a launch with a zero in its second global-size
dimension is rejected, and the concretely constructed record stores no
zero entry within its declared dimension. -/
theorem clqueuedkernel_create_rejects_zero_shape_witness :
    CLQueuedKernel.create "bad" [] 2 [4, 0] [1, 1] [] [] sampleCompute 0 = none ∧
      (0 ∉ createdKernel.global_work_size.take createdKernel.work_dim ∧
        0 ∉ createdKernel.local_work_size.take createdKernel.work_dim) :=
  ⟨clqueuedkernel_create_rejects_zero_shape.1 "bad" [] 2 [4, 0] [1, 1] [] []
      sampleCompute 0 (by decide),
   clqueuedkernel_create_rejects_zero_shape.2 "created"
      [⟨"x", "int", "\x04", 4⟩] 1 [4] [2] [] [] sampleCompute 0 createdKernel rfl⟩

/-- C8: every record built by capture has its four argument vectors
`arg_names`, `arg_types`, `args`, `args_size` of one common length,
and that length is `num_args`, the kernel's declared argument count. -/
theorem clqueuedkernel_arg_vectors_length (name : String) (descs : List ArgDesc)
    (wd : Nat) (gws lws cs ps : List Nat) (f : List (List Nat) → Nat → List Nat)
    (st : Int) (k : CLQueuedKernel)
    (h : CLQueuedKernel.create name descs wd gws lws cs ps f st = some k) :
    k.arg_names.length = k.num_args ∧ k.arg_types.length = k.num_args ∧
      k.args.length = k.num_args ∧ k.args_size.length = k.num_args := by
  rw [CLQueuedKernel.create] at h
  split at h
  · injection h with h
    subst h
    simp
  · exact Option.noConfusion h

/-- Witness for C8 on the concretely constructed one-argument record. -/
theorem clqueuedkernel_arg_vectors_length_witness :
    createdKernel.arg_names.length = createdKernel.num_args ∧
      createdKernel.arg_types.length = createdKernel.num_args ∧
      createdKernel.args.length = createdKernel.num_args ∧
      createdKernel.args_size.length = createdKernel.num_args :=
  clqueuedkernel_arg_vectors_length "created" [⟨"x", "int", "\x04", 4⟩] 1 [4] [2]
    [] [] sampleCompute 0 createdKernel rfl

/-- A name absent from the scanned suffix yields the sentinel. -/
theorem argIndexAux_not_mem : ∀ (ns : List String) (i : Nat) (s : String),
    s ∉ ns → argIndexAux ns i s = -1
  | [], _, _, _ => rfl
  | n :: ns, i, s, h => by
    have hn : n ≠ s := by
      intro e; subst e; exact h (List.mem_cons_self n ns)
    simp only [argIndexAux, if_neg hn]
    exact argIndexAux_not_mem ns (i + 1) s (fun hs => h (List.mem_cons_of_mem n hs))

/-- A name present in the scanned suffix yields its offset, and the
entry there is an exact match. -/
theorem argIndexAux_mem : ∀ (ns : List String) (i : Nat) (s : String),
    s ∈ ns → ∃ j, argIndexAux ns i s = ((i + j : Nat) : Int) ∧ ns.get? j = some s
  | [], _, _, h => absurd h (List.not_mem_nil _)
  | n :: ns, i, s, h => by
    by_cases hn : n = s
    · refine ⟨0, ?_, ?_⟩
      · simp [argIndexAux, hn]
      · simp [hn]
    · have hs : s ∈ ns := by
        rcases List.mem_cons.mp h with h1 | h1
        · exact absurd h1.symm hn
        · exact h1
      obtain ⟨j, hj1, hj2⟩ := argIndexAux_mem ns (i + 1) s hs
      refine ⟨j + 1, ?_, ?_⟩
      · simp only [argIndexAux, if_neg hn]
        rw [hj1]
        congr 1
        omega
      · exact hj2

/-- C9: `get_arg_num` is an exact-match lookup over the argument
descriptors.  When some descriptor is named `s` it returns a
non-negative index at which the descriptor name is exactly `s`; when
no descriptor is named `s` it returns the not-found sentinel -1; there
is no other outcome. -/
theorem clqueuedkernel_get_arg_num_spec (k : CLQueuedKernel) (s : String) :
    (s ∈ k.arg_names → 0 ≤ k.get_arg_num s ∧
      k.arg_names.get? (k.get_arg_num s).toNat = some s)
    ∧ (s ∉ k.arg_names → k.get_arg_num s = -1) := by
  constructor
  · intro h
    obtain ⟨j, hj1, hj2⟩ := argIndexAux_mem k.arg_names 0 s h
    rw [CLQueuedKernel.get_arg_num, hj1]
    constructor
    · exact Int.natCast_nonneg _
    · simpa using hj2
  · intro h
    exact argIndexAux_not_mem k.arg_names 0 s h

/-- Witness for C9: on the sample record, looking up the bound name
returns its index 0 with an exact match there, and looking up a
missing name returns -1. -/
theorem clqueuedkernel_get_arg_num_spec_witness :
    (0 ≤ sampleKernel.get_arg_num "input" ∧
      sampleKernel.arg_names.get? (sampleKernel.get_arg_num "input").toNat =
        some "input")
    ∧ sampleKernel.get_arg_num "missing" = -1 :=
  ⟨(clqueuedkernel_get_arg_num_spec sampleKernel "input").1 (by decide),
   (clqueuedkernel_get_arg_num_spec sampleKernel "missing").2 (by decide)⟩
